import Mathlib

/-!
Shallow embedding of the learning-tracker backend (src/server.js).

The service is an Express app over a mongoose `Entry` model.  Request bodies
are untyped JSON values, so payload fields are modelled by `JSVal`
(undefined, null, number, string).  JS numbers are modelled by `ℚ` and
timestamps (millisecond clock values) by `ℤ`.  A handler's try/catch is
modelled by `Except String` internally, collapsed to a `serverError` result
at the handler boundary.  Calendar-string date parsing is outside the model:
`new Date(v)` is modelled for numeric inputs (the claims under study use
numeric timestamps); every other input is an invalid date (`none`).
-/

/-- A JSON-ish dynamic value as it appears in `req.body`. -/
inductive JSVal where
  | undef
  | nullv
  | num (q : ℚ)
  | str (s : String)
deriving DecidableEq

/-- JS truthiness for the values of `JSVal` (NaN does not arise: numeric
values are exact rationals here). -/
def truthy : JSVal → Bool
  | .undef => false
  | .nullv => false
  | .num q => decide (q ≠ 0)
  | .str s => decide (s ≠ "")

/-- Value of a digit list read in base 10. -/
def digitsVal (l : List Char) : ℕ :=
  l.foldl (fun a c => 10 * a + (c.toNat - 48)) 0

/-- Decimal-literal parser: digits, with an optional fractional part.
Models the common core of JS `ToNumber` / `parseFloat` on plain decimal
strings (the only string shapes the claims exercise). -/
def parseDecCore (cs : List Char) : Option ℚ :=
  let ip := cs.takeWhile (fun c => c.isDigit)
  let rest := cs.dropWhile (fun c => c.isDigit)
  match rest with
  | [] => if ip.isEmpty then none else some (digitsVal ip)
  | '.' :: frac =>
      if frac.all (fun c => c.isDigit) && !(ip.isEmpty && frac.isEmpty) then
        some ((digitsVal ip : ℚ) + (digitsVal frac : ℚ) / ((10 : ℚ) ^ frac.length))
      else none
  | _ => none

/-- Decimal parser with an optional sign. -/
def parseDec (s : String) : Option ℚ :=
  match s.data with
  | '-' :: cs => (parseDecCore cs).map (fun q => -q)
  | '+' :: cs => parseDecCore cs
  | cs => parseDecCore cs

/-- JS string `trim`: drop whitespace from both ends (structural model of
`String.trim` over the character list). -/
def trimStr (s : String) : String :=
  ⟨(((s.data.dropWhile Char.isWhitespace).reverse.dropWhile Char.isWhitespace).reverse)⟩

/-- JS `ToNumber` as used by the relational operators (`none` plays NaN). -/
def toNumber : JSVal → Option ℚ
  | .undef => none
  | .nullv => some 0
  | .num q => some q
  | .str s => if trimStr s = "" then some 0 else parseDec (trimStr s)

/-- JS `parseFloat` applied to a request value (`none` plays NaN). -/
def parseFloatV : JSVal → Option ℚ
  | .num q => some q
  | .str s => parseDec (trimStr s)
  | _ => none

/-- JS `v <= b` for a request value against a number (NaN compares false). -/
def jsLE (v : JSVal) (b : ℚ) : Bool :=
  match toNumber v with
  | none => false
  | some q => decide (q ≤ b)

/-- JS `v > b` for a request value against a number (NaN compares false). -/
def jsGT (v : JSVal) (b : ℚ) : Bool :=
  match toNumber v with
  | none => false
  | some q => decide (b < q)

/-- Truncation toward zero, as `new Date(number)` clips its time value. -/
def jsTrunc (q : ℚ) : ℤ := if q < 0 then q.ceil else q.floor

/-- `new Date(v)` for a request value: a time value, or `none` for an
invalid date.  Calendar-string parsing is outside the model. -/
def jsNewDate : JSVal → Option ℤ
  | .num q => some (jsTrunc q)
  | _ => none

/-- `d > now` on `Date` objects (an invalid date compares false). -/
def jsDateGT : Option ℤ → ℤ → Bool
  | none, _ => false
  | some t, now => decide (now < t)

/-- `v.trim()`: succeeds on strings, throws a TypeError on anything else. -/
def trimVal : JSVal → Except String String
  | .str s => .ok (trimStr s)
  | _ => .error "TypeError"

/-- A stored learning entry (the mongoose `Entry` document). -/
structure Entry where
  id : String
  name : String
  date : ℤ
  hours : ℚ
  notes : String
  createdAt : ℤ
  updatedAt : ℤ
deriving DecidableEq

/-- Hex digit test, for ObjectId well-formedness. -/
def isHexDigit (c : Char) : Bool :=
  c.isDigit || ('a' ≤ c && c ≤ 'f') || ('A' ≤ c && c ≤ 'F')

/-- Mongoose casts a string to an ObjectId when it is 24 hex characters
(or a 12-character byte string); otherwise the cast throws a CastError. -/
def validObjectId (s : String) : Bool :=
  (s.length == 24 && s.data.all isHexDigit) || s.length == 12

/-- `Entry.findById(id)` over a store: a CastError for a malformed id,
otherwise the first entry with that id, if any. -/
def findById (store : List Entry) (id : String) : Except String (Option Entry) :=
  if validObjectId id then .ok (store.find? (fun e => e.id == id)) else .error "CastError"

/-- Result of `GET /api/entries/:id`. -/
inductive GetResult where
  | ok (e : Entry)
  | notFound
  | serverError (msg : String)
deriving DecidableEq

/-- Handler for `GET /api/entries/:id` (server.js lines 76-86): the thrown
CastError of a malformed id is caught and mapped to the 500 response. -/
def getEntryById (store : List Entry) (id : String) : GetResult :=
  match findById store id with
  | .error _ => .serverError "Error fetching entry"
  | .ok none => .notFound
  | .ok (some e) => .ok e

/-- A request body `{name, date, hours, notes}` with untyped fields. -/
structure Payload where
  name : JSVal
  date : JSVal
  hours : JSVal
  notes : JSVal
deriving DecidableEq

/-- Result of `POST /api/entries`. -/
inductive CreateResult where
  | badRequest (msg : String)
  | created (e : Entry)
  | serverError (msg : String)
deriving DecidableEq

/-- Mongoose schema validation run by `entry.save()` (server.js lines
20-54): name required with minlength 2 (the trim setter has already been
applied to the stored value), date not in the future, hours in [0.1, 24]. -/
def validateEntry (saveNow : ℤ) (e : Entry) : Bool :=
  (e.name != "") && decide (2 ≤ e.name.length) &&
  decide (e.date ≤ saveNow) &&
  decide ((1 : ℚ)/10 ≤ e.hours) && decide (e.hours ≤ 24)

/-- Handler for `POST /api/entries` (server.js lines 89-122).  `now1` is the
clock at the route-level checks, `now2` the clock at `entry.save()`
(`now1 ≤ now2` in any real run); `freshId` is the ObjectId the store
assigns.  Route-level validation mirrors lines 94-108; the entry is then
built with `name.trim()`, the raw date, `parseFloat(hours)` and trimmed
notes (line 110-115), and `save` applies the schema's trim setters and
validators; any throw is caught and mapped to the 500 response. -/
def createEntry (now1 now2 : ℤ) (freshId : String) (store : List Entry) (p : Payload) :
    CreateResult × List Entry :=
  if !(truthy p.name && truthy p.date && truthy p.hours) then
    (.badRequest "Name, date, and hours are required", store)
  else
    match trimVal p.name with
    | .error _ => (.serverError "Error creating entry", store)
    | .ok nameT =>
      if nameT.length < 2 then (.badRequest "Name must be at least 2 characters", store)
      else if jsDateGT (jsNewDate p.date) now1 then
        (.badRequest "Date cannot be in the future", store)
      else if jsLE p.hours 0 || jsGT p.hours 24 then
        (.badRequest "Hours must be between 0 and 24", store)
      else
        match (if truthy p.notes then trimVal p.notes else .ok "") with
        | .error _ => (.serverError "Error creating entry", store)
        | .ok notesT =>
          match jsNewDate p.date, parseFloatV p.hours with
          | some dt, some hq =>
            let e : Entry := ⟨freshId, trimStr nameT, dt, hq, trimStr notesT, now2, now2⟩
            if validateEntry now2 e then (.created e, store ++ [e])
            else (.serverError "Error creating entry", store)
          | _, _ => (.serverError "Error creating entry", store)

/-- The update document built by the PUT handler: for each field, `none`
means the field is not part of the update.  `hours` carries the
`parseFloat` result (inner `none` plays NaN). -/
structure UpdateData where
  name : Option String
  date : Option JSVal
  hours : Option (Option ℚ)
  notes : Option String
deriving DecidableEq

/-- Result of `PUT /api/entries/:id`. -/
inductive UpdateResult where
  | ok (e : Entry)
  | badRequest (msg : String)
  | notFound
  | serverError (msg : String)
deriving DecidableEq

/-- Replace the entry with the given id in the store. -/
def replaceById (store : List Entry) (id : String) (e2 : Entry) : List Entry :=
  store.map (fun x => if x.id == id then e2 else x)

/-- Mongoose cast of the `date` path of an update document. -/
def castDate : Option JSVal → Except String (Option ℤ)
  | none => .ok none
  | some v =>
    match jsNewDate v with
    | none => .error "CastError"
    | some t => .ok (some t)

/-- Mongoose cast of the `hours` path of an update document (NaN does not
cast to a Number). -/
def castHours : Option (Option ℚ) → Except String (Option ℚ)
  | none => .ok none
  | some none => .error "CastError"
  | some (some q) => .ok (some q)

/-- The update validators (`runValidators: true`) on the supplied paths,
with `saveNow` the clock when the date validator runs. -/
def validatorsOk (saveNow : ℤ) (n : Option String) (d : Option ℤ) (h : Option ℚ) : Bool :=
  (match n with
   | some s => (s != "") && decide (2 ≤ s.length)
   | none => true) &&
  (match d with
   | some t => decide (t ≤ saveNow)
   | none => true) &&
  (match h with
   | some q => decide ((1 : ℚ)/10 ≤ q) && decide (q ≤ 24)
   | none => true)

/-- `Entry.findByIdAndUpdate(id, u, {new: true, runValidators: true})`:
casts the update document, runs the update validators, casts the query id,
then applies the supplied fields and sets `updatedAt` (schema
`timestamps: true`), returning the post-update document. -/
def findByIdAndUpdate (saveNow : ℤ) (store : List Entry) (id : String) (u : UpdateData) :
    Except String (UpdateResult × List Entry) :=
  match castDate u.date, castHours u.hours with
  | .ok dcast, .ok hcast =>
    let ncast : Option String := u.name.map trimStr
    if !validatorsOk saveNow ncast dcast hcast then .error "ValidationError"
    else if !validObjectId id then .error "CastError"
    else
      match store.find? (fun e => e.id == id) with
      | none => .ok (.notFound, store)
      | some e =>
        let e2 : Entry := ⟨e.id, ncast.getD e.name, dcast.getD e.date, hcast.getD e.hours,
          (u.notes.map trimStr).getD e.notes, e.createdAt, saveNow⟩
        .ok (.ok e2, replaceById store id e2)
  | .error m, _ => .error m
  | _, .error m => .error m

/-- The PUT handler's name 400-check applies to the trimmed name when the
raw name was truthy. -/
def nameLenBad : Option String → Bool
  | some s => decide (s.length < 2)
  | none => false

/-- Handler for `PUT /api/entries/:id` (server.js lines 125-162).  Each
validation guard is gated on the raw value's truthiness (lines 130-140), so
a falsy supplied value skips both its check and its inclusion in the update
document (lines 142-146); `notes` is included whenever it is not undefined,
and `notes.trim()` throws on a non-string; any throw is caught and mapped
to the 500 response, leaving the store untouched. -/
def updateEntry (now1 now2 : ℤ) (store : List Entry) (id : String) (p : Payload) :
    UpdateResult × List Entry :=
  match (if truthy p.name then Except.map some (trimVal p.name) else .ok none) with
  | .error _ => (.serverError "Error updating entry", store)
  | .ok nameOpt =>
    if nameLenBad nameOpt then (.badRequest "Name must be at least 2 characters", store)
    else if truthy p.date && jsDateGT (jsNewDate p.date) now1 then
      (.badRequest "Date cannot be in the future", store)
    else if truthy p.hours && (jsLE p.hours 0 || jsGT p.hours 24) then
      (.badRequest "Hours must be between 0 and 24", store)
    else
      match (if p.notes ≠ JSVal.undef then Except.map some (trimVal p.notes) else .ok none) with
      | .error _ => (.serverError "Error updating entry", store)
      | .ok notesOpt =>
        let u : UpdateData := ⟨nameOpt,
          (if truthy p.date then some p.date else none),
          (if truthy p.hours then some (parseFloatV p.hours) else none),
          notesOpt⟩
        match findByIdAndUpdate now2 store id u with
        | .error _ => (.serverError "Error updating entry", store)
        | .ok r => r

/-- One leaderboard group: a learner with accumulated hours and count. -/
structure LGroup where
  name : String
  hours : ℚ
  entries : ℕ
deriving DecidableEq

/-- One step of the leaderboard `reduce` (server.js lines 188-195): add the
entry's hours to its name's group, appending a fresh group for a new name. -/
def upsert (acc : List LGroup) (e : Entry) : List LGroup :=
  match acc with
  | [] => [⟨e.name, e.hours, 1⟩]
  | g :: t =>
    if g.name = e.name then ⟨g.name, g.hours + e.hours, g.entries + 1⟩ :: t
    else g :: upsert t e

/-- The leaderboard accumulator object, as a list of groups in property
insertion order. -/
def groupsOf (l : List Entry) : List LGroup :=
  l.foldl upsert []

/-- A string is a JS array-index property key when it is the canonical
decimal form of an integer below 2^32 - 1: all digits, no leading zero
except for "0" itself, value in range. -/
def isArrayIndexKey (s : String) : Bool :=
  match s.data with
  | [] => false
  | c :: cs =>
    (c :: cs).all Char.isDigit && (decide (c ≠ '0') || cs.isEmpty) &&
      decide (digitsVal (c :: cs) < 4294967295)

/-- Numeric value of an array-index group name. -/
def idxKey (g : LGroup) : ℕ := digitsVal g.name.data

/-- Insertion step of the ascending numeric ordering of array-index keys. -/
def insertAscIdx (x : LGroup) : List LGroup → List LGroup
  | [] => [x]
  | h :: t => if idxKey h ≤ idxKey x then h :: insertAscIdx x t else x :: h :: t

/-- `Object.values` order on a plain object: array-index keys first in
ascending numeric order, then the remaining string keys in insertion
order. -/
def jsObjectValues (gs : List LGroup) : List LGroup :=
  ((gs.filter (fun g => isArrayIndexKey g.name)).foldl (fun acc x => insertAscIdx x acc) []) ++
    gs.filter (fun g => !isArrayIndexKey g.name)

/-- Insertion step of the stable descending sort by total hours. -/
def insertDescHours (x : LGroup) : List LGroup → List LGroup
  | [] => [x]
  | h :: t => if x.hours ≤ h.hours then h :: insertDescHours x t else x :: h :: t

/-- `.sort((a, b) => b.hours - a.hours)`: a stable sort producing
non-increasing hours, equal totals keeping their relative order. -/
def stableSortDescHours (gs : List LGroup) : List LGroup :=
  gs.foldl (fun acc x => insertDescHours x acc) []

/-- `topLearners` of the stats handler (server.js lines 188-199): group,
enumerate with `Object.values`, stable-sort by hours descending, take 5. -/
def topLearners (l : List Entry) : List LGroup :=
  (stableSortDescHours (jsObjectValues (groupsOf l))).take 5

/-- Modelled from the spec wording of the leaderboard (spec §4.3 step 5):
groups in order of each name's first appearance, stable sort by total hours
descending, truncated to 5 — for comparison with `topLearners`. -/
def topLearnersSpec (l : List Entry) : List LGroup :=
  (stableSortDescHours (groupsOf l)).take 5

/-- `parseFloat(x.toFixed(1))`: round to one decimal place, ties away from
the smaller value (`toFixed` picks the larger candidate on a tie). -/
def toFixed1 (q : ℚ) : ℚ := (((q * 10 + 1/2).floor : ℤ) : ℚ) / 10

/-- The response of `GET /api/stats`. -/
structure StatsOut where
  totalEntries : ℕ
  totalHours : ℚ
  uniqueLearners : ℕ
  avgHours : ℚ
  topLearners : List LGroup
deriving DecidableEq

/-- Handler for `GET /api/stats` (server.js lines 178-211). -/
def getStats (l : List Entry) : StatsOut :=
  let totalEntries := l.length
  let totalHours := l.foldl (fun s e => s + e.hours) 0
  let uniqueLearners := (l.map (fun e => e.name)).dedup.length
  let avgHours := if 0 < totalEntries then totalHours / (totalEntries : ℚ) else 0
  ⟨totalEntries, toFixed1 totalHours, uniqueLearners, toFixed1 avgHours, topLearners l⟩

/-- Sum of the hours of a list of entries (full precision). -/
def sumHours (l : List Entry) : ℚ := (l.map (fun e => e.hours)).sum

/-- Copy of an entry with a new `updatedAt` timestamp. -/
def setUpdatedAt (e : Entry) (t : ℤ) : Entry :=
  ⟨e.id, e.name, e.date, e.hours, e.notes, e.createdAt, t⟩

/-- A well-formed 24-hex-character ObjectId used in concrete runs. -/
def oid24 : String := "aaaaaaaaaaaaaaaaaaaaaaaa"

/-- A valid base payload whose hours field varies per experiment. -/
def payloadWithHours (h : JSVal) : Payload := ⟨.str "ab", .num 1000, h, .undef⟩

/-- A concrete stored entry used in concrete runs. -/
def entry1 : Entry := ⟨oid24, "ab", 1000, 5, "", 500, 500⟩

/-- Concrete entry with a non-numeric name. -/
def entryA : Entry := ⟨"cccccccccccccccccccccccc", "ab", 0, 5, "", 0, 0⟩

/-- Concrete entry whose name is an array-index string. -/
def entryB : Entry := ⟨"dddddddddddddddddddddddd", "10", 0, 5, "", 0, 0⟩

/-- Concrete entry list with hours 3, 5, 2. -/
def entriesEx : List Entry :=
  [⟨"e1e1e1e1e1e1e1e1e1e1e1e1", "ab", 0, 3, "", 0, 0⟩,
   ⟨"e2e2e2e2e2e2e2e2e2e2e2e2", "cd", 0, 5, "", 0, 0⟩,
   ⟨"e3e3e3e3e3e3e3e3e3e3e3e3", "ab", 0, 2, "", 0, 0⟩]

/-- Truncation agrees with the integer itself on integer time values. -/
theorem jsTrunc_intCast (t : ℤ) : jsTrunc (t : ℚ) = t := by
  unfold jsTrunc
  have hfl : Rat.floor (t : ℚ) = t := by
    rw [Rat.floor_def', Rat.num_intCast, Rat.den_intCast]
    simp
  have hcl : Rat.ceil (t : ℚ) = t := by
    unfold Rat.ceil
    rw [Rat.num_intCast, Rat.den_intCast]
    simp
  split
  · exact hcl
  · exact hfl

/-- Folding the stats accumulator equals adding the list sum. -/
theorem foldl_add_hours (l : List Entry) (a : ℚ) :
    l.foldl (fun s e => s + e.hours) a = a + sumHours l := by
  induction l generalizing a with
  | nil => simp [sumHours]
  | cons e t ih => simp [sumHours, ih, List.map_cons, List.sum_cons]; ring

/-- `upsert` introduces no group name beyond those already present and the
inserted entry's name. -/
theorem upsert_name_pred (p : String → Bool) (acc : List LGroup) (e : Entry)
    (hacc : ∀ g ∈ acc, p g.name = false) (he : p e.name = false) :
    ∀ g ∈ upsert acc e, p g.name = false := by
  induction acc with
  | nil =>
    intro g hg
    simp [upsert] at hg
    simp [hg, he]
  | cons h t ih =>
    intro g hg
    by_cases hn : h.name = e.name
    · simp [upsert, hn] at hg
      rcases hg with hg | hg
      · have := hacc h (List.mem_cons_self h t)
        simp [hg, hn, he]
      · exact hacc g (List.mem_cons_of_mem h hg)
    · simp [upsert, hn] at hg
      rcases hg with hg | hg
      · subst hg; exact hacc g (List.mem_cons_self g t)
      · exact ih (fun x hx => hacc x (List.mem_cons_of_mem h hx)) g hg

/-- Group names produced by the whole leaderboard fold all come from entry
names (stated for a Boolean predicate that is false on every input name). -/
theorem foldl_upsert_name_pred (p : String → Bool) (l : List Entry) (acc : List LGroup)
    (hacc : ∀ g ∈ acc, p g.name = false) (hl : ∀ e ∈ l, p e.name = false) :
    ∀ g ∈ l.foldl upsert acc, p g.name = false := by
  induction l generalizing acc with
  | nil => intro g hg; exact hacc g hg
  | cons e t ih =>
    intro g hg
    exact ih (upsert acc e)
      (upsert_name_pred p acc e hacc (hl e (List.mem_cons_self e t)))
      (fun x hx => hl x (List.mem_cons_of_mem e hx)) g hg

/-- C1 counterexample: `GET /api/entries/xyz` (a malformed identifier) is
answered with the 500 server error, not with the 404 not-found response the
claim requires. -/
theorem c1_counterexample :
    getEntryById [] "xyz" = GetResult.serverError "Error fetching entry" ∧
    getEntryById [] "xyz" ≠ GetResult.notFound := by
  constructor
  · rfl
  · decide

/-- C1 (amended): a request `GET /api/entries/:id` with a malformed
identifier does not crash the lookup, but the caught cast error yields the
500 server-error response, not 404; only a well-formed identifier that
resolves to no record yields the 404 not-found response. -/
theorem c1_get_malformed_500 (store : List Entry) (id : String) :
    (validObjectId id = false →
      getEntryById store id = GetResult.serverError "Error fetching entry") ∧
    (validObjectId id = true → store.find? (fun e => e.id == id) = none →
      getEntryById store id = GetResult.notFound) := by
  constructor
  · intro h
    simp [getEntryById, findById, h]
  · intro h hf
    simp [getEntryById, findById, h, hf]

/-- C1 witness: the malformed identifier "xyz" yields the 500 response and
the absent well-formed identifier of 24 hex characters yields 404. -/
theorem c1_witness :
    getEntryById [] "xyz" = GetResult.serverError "Error fetching entry" ∧
    getEntryById [] oid24 = GetResult.notFound :=
  ⟨(c1_get_malformed_500 [] "xyz").1 (by decide),
   (c1_get_malformed_500 [] oid24).2 (by decide) (by decide)⟩

unseal Rat.add Rat.mul Rat.inv Rat.sub in
/-- C5: statistics over zero entries are all zero and the leaderboard is
empty; in particular the average is 0, not a division failure. -/
theorem c5_stats_empty : getStats [] = ⟨0, 0, 0, 0, []⟩ := by
  decide

/-- C10: an update request whose notes field is explicitly null is answered
with the 500 server error (the null value reaches `notes.trim()`, whose
TypeError is caught as a server error), never 400 or success, and the store
is left unchanged. -/
theorem c10_null_notes_500 (now1 now2 : ℤ) (store : List Entry) (id : String) :
    updateEntry now1 now2 store id ⟨.undef, .undef, .undef, .nullv⟩ =
      (UpdateResult.serverError "Error updating entry", store) := by
  rfl

unseal Rat.add Rat.mul Rat.inv Rat.sub in
/-- C2 counterexample: a create request with hours = 0.05 — a value inside
the claimed accepted range (0, 24] — is not created: it passes the route
check but fails the store schema's minimum of 0.1, yielding the 500 server
error and an unchanged store. -/
theorem c2_counterexample :
    createEntry 2000 2000 oid24 [] (payloadWithHours (.num (1/20))) =
      (CreateResult.serverError "Error creating entry", []) := by
  decide

unseal Rat.add Rat.mul Rat.inv Rat.sub in
/-- C2 (amended): hours = 0 and hours = 25 are rejected with 400-equivalent
results and hours = 24 and hours = 0.1 are accepted and created, but the
accepted range is [0.1, 24], not (0, 24]: a value in (0, 0.1) passes the
route validation and is then rejected by the store schema's minimum of 0.1,
producing a 500 server error with no entry created. -/
theorem c2_hours_range (q : ℚ) :
    (createEntry 2000 2000 oid24 [] (payloadWithHours (.num 0))).1 =
        CreateResult.badRequest "Name, date, and hours are required" ∧
    (createEntry 2000 2000 oid24 [] (payloadWithHours (.num 25))).1 =
        CreateResult.badRequest "Hours must be between 0 and 24" ∧
    (createEntry 2000 2000 oid24 [] (payloadWithHours (.num 24))).1 =
        CreateResult.created ⟨oid24, "ab", 1000, 24, "", 2000, 2000⟩ ∧
    (createEntry 2000 2000 oid24 [] (payloadWithHours (.num (1/10)))).1 =
        CreateResult.created ⟨oid24, "ab", 1000, 1/10, "", 2000, 2000⟩ ∧
    (0 < q → q < 1/10 →
      (createEntry 2000 2000 oid24 [] (payloadWithHours (.num q))).1 =
        CreateResult.serverError "Error creating entry") := by
  refine ⟨by decide, by decide, by decide, by decide, ?_⟩
  · intro h1 h2
    have hq0 : q ≠ 0 := ne_of_gt h1
    have hle : ¬ q ≤ 0 := not_le.mpr h1
    have hgt : ¬ (24:ℚ) < q := by
      intro hc
      have h24 : (1:ℚ)/10 < 24 := by norm_num
      linarith
    have hmin : ¬ ((10:ℚ)⁻¹ ≤ q) := by
      rw [inv_eq_one_div]
      exact not_le.mpr h2
    have hj : jsTrunc 1000 = 1000 := by decide
    have htl : trimStr "ab" = "ab" := by decide
    have hl2 : ("ab".length) = 2 := by decide
    simp [createEntry, payloadWithHours, truthy, trimVal, jsDateGT, jsNewDate, jsLE, jsGT,
      toNumber, parseFloatV, validateEntry, hj, htl, hl2, hq0, hle, hgt, hmin]

/-- C2 witness: the amended theorem applied at hours = 1/20, whose
hypotheses 0 < 1/20 and 1/20 < 1/10 hold. -/
theorem c2_witness :
    (createEntry 2000 2000 oid24 [] (payloadWithHours (.num (1/20)))).1 =
      CreateResult.serverError "Error creating entry" :=
  (c2_hours_range (1/20)).2.2.2.2 (by norm_num) (by norm_num)

unseal Rat.add Rat.mul Rat.inv Rat.sub in
/-- C3 counterexample: an update supplying the invalid field hours = 0 is
not rejected with 400 as the claim requires; the falsy value is silently
ignored and the update succeeds with 200, hours unchanged. -/
theorem c3_counterexample :
    updateEntry 2000 2000 [entry1] oid24 ⟨.undef, .undef, .num 0, .undef⟩ =
      (UpdateResult.ok (setUpdatedAt entry1 2000), [setUpdatedAt entry1 2000]) ∧
    (updateEntry 2000 2000 [entry1] oid24 ⟨.undef, .undef, .num 0, .undef⟩).1 ≠
      UpdateResult.badRequest "Hours must be between 0 and 24" := by
  constructor
  · decide
  · decide

/-- C3 (amended): a supplied field is re-validated only when its value is
truthy: a truthy invalid hours value rejects the whole update with 400 and
an untouched store, while a falsy supplied value (hours = 0, or the empty
string as name) is treated exactly like an omitted field — the update
succeeds and the stored values are kept, only `updatedAt` moving. -/
theorem c3_update_validation (now1 now2 : ℤ) (store : List Entry) (id : String) (q : ℚ)
    (e : Entry) :
    (q ≠ 0 → q ≤ 0 ∨ 24 < q →
      updateEntry now1 now2 store id ⟨.undef, .undef, .num q, .undef⟩ =
        (UpdateResult.badRequest "Hours must be between 0 and 24", store)) ∧
    (validObjectId id = true → store.find? (fun x => x.id == id) = some e →
      updateEntry now1 now2 store id ⟨.str "", .undef, .num 0, .undef⟩ =
        (UpdateResult.ok (setUpdatedAt e now2), replaceById store id (setUpdatedAt e now2))) := by
  constructor
  · intro hq0 hrange
    simp [updateEntry, truthy, nameLenBad, jsLE, jsGT, toNumber, hq0]
    rcases hrange with h | h
    · simp [h]
    · simp [h]
  · intro hid hfind
    simp [updateEntry, truthy, nameLenBad, findByIdAndUpdate, castDate, castHours, validatorsOk,
      hid, hfind, setUpdatedAt]

unseal Rat.add Rat.mul Rat.inv Rat.sub in
/-- C3 witness: the amended theorem applied at a concrete store and the
inputs hours = 25 (rejected with 400) and hours = 0 with an empty-string
name (treated as omitted, update succeeds). -/
theorem c3_witness :
    updateEntry 2000 2000 [entry1] oid24 ⟨.undef, .undef, .num 25, .undef⟩ =
      (UpdateResult.badRequest "Hours must be between 0 and 24", [entry1]) ∧
    updateEntry 2000 2000 [entry1] oid24 ⟨.str "", .undef, .num 0, .undef⟩ =
      (UpdateResult.ok (setUpdatedAt entry1 2000),
        replaceById [entry1] oid24 (setUpdatedAt entry1 2000)) :=
  ⟨(c3_update_validation 2000 2000 [entry1] oid24 25 entry1).1 (by decide) (by decide),
   (c3_update_validation 2000 2000 [entry1] oid24 25 entry1).2 (by decide) (by decide)⟩

unseal Rat.add Rat.mul Rat.inv Rat.sub in
/-- C4 counterexample: for the entries [ab: 5h, "10": 5h] the code's
leaderboard lists "10" first although "ab" appeared first with equal total
hours: the accumulator object enumerates the array-index key "10" before
the insertion-ordered key "ab", so the tie is not broken by first
appearance as the claim requires. -/
theorem c4_counterexample :
    topLearners [entryA, entryB] = [⟨"10", 5, 1⟩, ⟨"ab", 5, 1⟩] ∧
    topLearnersSpec [entryA, entryB] = [⟨"ab", 5, 1⟩, ⟨"10", 5, 1⟩] ∧
    topLearners [entryA, entryB] ≠ topLearnersSpec [entryA, entryB] := by
  refine ⟨by decide, by decide, by decide⟩

/-- C4 (amended): the leaderboard is the grouped totals sorted stably by
hours descending and truncated to 5, with ties kept in first-appearance
order, provided no learner name is a JS array-index string (the canonical
decimal form of an integer below 2^32 - 1); such names are enumerated first
in numeric order by `Object.values` and can reorder ties. -/
theorem c4_leaderboard (l : List Entry)
    (h : ∀ e ∈ l, isArrayIndexKey e.name = false) :
    topLearners l = topLearnersSpec l := by
  have hg : ∀ g ∈ groupsOf l, isArrayIndexKey g.name = false :=
    foldl_upsert_name_pred isArrayIndexKey l [] (by intro g hg; cases hg) h
  unfold topLearners topLearnersSpec jsObjectValues
  have h1 : (groupsOf l).filter (fun g => isArrayIndexKey g.name) = [] := by
    rw [List.filter_eq_nil_iff]
    intro a ha
    simp [hg a ha]
  have h2 : (groupsOf l).filter (fun g => !isArrayIndexKey g.name) = groupsOf l := by
    rw [List.filter_eq_self]
    intro a ha
    simp [hg a ha]
  rw [h1, h2]
  simp

unseal Rat.add Rat.mul Rat.inv Rat.sub in
/-- C4 witness: the amended theorem applied to a list whose names are not
array-index strings. -/
theorem c4_witness : topLearners [entryA] = topLearnersSpec [entryA] :=
  c4_leaderboard [entryA] (by decide)

/-- C6: for a non-empty entry list the reported totalHours is the
full-precision sum of the hours rounded to 1 decimal place for output only,
and the reported avgHours is that full-precision sum divided by the entry
count and then rounded to 1 decimal place. -/
theorem c6_stats_rounding (l : List Entry) (h : l ≠ []) :
    (getStats l).totalHours = toFixed1 (sumHours l) ∧
    (getStats l).avgHours = toFixed1 (sumHours l / (l.length : ℚ)) := by
  have hpos : 0 < l.length := List.length_pos.mpr h
  constructor
  · simp [getStats, foldl_add_hours]
  · simp [getStats, foldl_add_hours, hpos]

unseal Rat.add Rat.mul Rat.inv Rat.sub in
/-- C6 witness: the theorem applied to the example hours 3, 5, 2, whose
reported totals evaluate to 10 and 3.3. -/
theorem c6_witness :
    ((getStats entriesEx).totalHours = toFixed1 (sumHours entriesEx) ∧
      (getStats entriesEx).avgHours = toFixed1 (sumHours entriesEx / (entriesEx.length : ℚ))) ∧
    (getStats entriesEx).totalHours = 10 ∧ (getStats entriesEx).avgHours = 33/10 :=
  ⟨c6_stats_rounding entriesEx (by decide), by decide, by decide⟩

/-- C7: for an otherwise valid create request with a numeric timestamp
date, a date strictly later than the server clock at validation time is
rejected with 400, and a date equal to the clock is accepted and the entry
created (the boundary is inclusive). -/
theorem c7_date_boundary (now1 now2 t : ℤ) (freshId : String) (store : List Entry)
    (nm : String) (q : ℚ)
    (hnm : trimStr nm = nm) (hlen : 2 ≤ nm.length)
    (ht0 : t ≠ 0) (hq1 : 1/10 ≤ q) (hq2 : q ≤ 24) (hnow : now1 ≤ now2) :
    (now1 < t →
      (createEntry now1 now2 freshId store ⟨.str nm, .num (t : ℚ), .num q, .undef⟩).1 =
        CreateResult.badRequest "Date cannot be in the future") ∧
    (t = now1 →
      createEntry now1 now2 freshId store ⟨.str nm, .num (t : ℚ), .num q, .undef⟩ =
        (CreateResult.created ⟨freshId, nm, t, q, "", now2, now2⟩,
          store ++ [⟨freshId, nm, t, q, "", now2, now2⟩])) := by
  have hne : nm ≠ "" := by
    intro hemp
    rw [hemp] at hlen
    simp at hlen
  have htq : ((t : ℚ)) ≠ 0 := Int.cast_ne_zero.mpr ht0
  have hq0 : q ≠ 0 := ne_of_gt (lt_of_lt_of_le (by norm_num) hq1)
  have hqle : ¬ q ≤ 0 := not_le.mpr (lt_of_lt_of_le (by norm_num) hq1)
  have hqgt : ¬ (24:ℚ) < q := not_lt.mpr hq2
  have hnlt : ¬ nm.length < 2 := not_lt.mpr hlen
  have htrimE : trimStr "" = "" := by decide
  have hq1i : ((10:ℚ)⁻¹ ≤ q) := by
    rw [inv_eq_one_div]
    exact hq1
  constructor
  · intro hlt
    simp [createEntry, truthy, trimVal, jsDateGT, jsNewDate, jsTrunc_intCast, jsLE, jsGT,
      toNumber, parseFloatV, hne, htq, hq0, hnm, hnlt, hlt]
  · intro hteq
    subst hteq
    simp [createEntry, truthy, trimVal, jsDateGT, jsNewDate, jsTrunc_intCast, jsLE, jsGT,
      toNumber, parseFloatV, validateEntry, hne, htq, hq0, hnm, hnlt, hqle, hqgt,
      htrimE, hlen, hnow, hq1i, hq2]

unseal Rat.add Rat.mul Rat.inv Rat.sub in
/-- C7 witness: with the clock at 1, the date 2 (one tick in the future) is
rejected and the date 1 (equal to the clock) is accepted and stored. -/
theorem c7_witness :
    (createEntry 1 1 "f1" [] ⟨.str "ab", .num ((2:ℤ) : ℚ), .num 5, .undef⟩).1 =
      CreateResult.badRequest "Date cannot be in the future" ∧
    createEntry 1 1 "f1" [] ⟨.str "ab", .num ((1:ℤ) : ℚ), .num 5, .undef⟩ =
      (CreateResult.created ⟨"f1", "ab", 1, 5, "", 1, 1⟩,
        [] ++ [⟨"f1", "ab", 1, 5, "", 1, 1⟩]) :=
  ⟨(c7_date_boundary 1 1 2 "f1" [] "ab" 5 (by decide) (by decide) (by decide) (by decide)
      (by decide) (by decide)).1 (by decide),
   (c7_date_boundary 1 1 1 "f1" [] "ab" 5 (by decide) (by decide) (by decide) (by decide)
      (by decide) (by decide)).2 rfl⟩

/-- C8: updating an existing entry with an empty partial payload succeeds
and leaves every stored field unchanged except `updatedAt`, which is set to
the save-time clock and so advances. -/
theorem c8_empty_update (now1 now2 : ℤ) (store : List Entry) (id : String) (e : Entry)
    (hid : validObjectId id = true)
    (hfind : store.find? (fun x => x.id == id) = some e)
    (hadv : e.updatedAt < now2) :
    updateEntry now1 now2 store id ⟨.undef, .undef, .undef, .undef⟩ =
      (UpdateResult.ok (setUpdatedAt e now2), replaceById store id (setUpdatedAt e now2)) ∧
    (setUpdatedAt e now2).id = e.id ∧
    (setUpdatedAt e now2).name = e.name ∧
    (setUpdatedAt e now2).date = e.date ∧
    (setUpdatedAt e now2).hours = e.hours ∧
    (setUpdatedAt e now2).notes = e.notes ∧
    (setUpdatedAt e now2).createdAt = e.createdAt ∧
    e.updatedAt < (setUpdatedAt e now2).updatedAt := by
  refine ⟨?_, rfl, rfl, rfl, rfl, rfl, rfl, hadv⟩
  simp [updateEntry, truthy, nameLenBad, findByIdAndUpdate, castDate, castHours, validatorsOk,
    hid, hfind, setUpdatedAt]

unseal Rat.add Rat.mul Rat.inv Rat.sub in
/-- C8 witness: the theorem applied to a concrete store whose single entry
was last updated at 500, with the save clock at 2000. -/
theorem c8_witness :
    updateEntry 7 2000 [entry1] oid24 ⟨.undef, .undef, .undef, .undef⟩ =
      (UpdateResult.ok (setUpdatedAt entry1 2000),
        replaceById [entry1] oid24 (setUpdatedAt entry1 2000)) ∧
    (setUpdatedAt entry1 2000).id = entry1.id ∧
    (setUpdatedAt entry1 2000).name = entry1.name ∧
    (setUpdatedAt entry1 2000).date = entry1.date ∧
    (setUpdatedAt entry1 2000).hours = entry1.hours ∧
    (setUpdatedAt entry1 2000).notes = entry1.notes ∧
    (setUpdatedAt entry1 2000).createdAt = entry1.createdAt ∧
    entry1.updatedAt < (setUpdatedAt entry1 2000).updatedAt :=
  c8_empty_update 7 2000 [entry1] oid24 entry1 (by decide) (by decide) (by decide)

/-- C9: a create request whose hours field is a numeric string whose parsed
value lies in the accepted range is accepted, and the stored hours is the
parsed number, not the string. -/
theorem c9_numeric_string_hours (now1 now2 t : ℤ) (freshId : String) (store : List Entry)
    (nm s : String) (q : ℚ)
    (hnm : trimStr nm = nm) (hlen : 2 ≤ nm.length)
    (ht0 : t ≠ 0) (hd : t ≤ now1) (hnow : now1 ≤ now2)
    (hs : parseDec (trimStr s) = some q)
    (hq1 : 1/10 ≤ q) (hq2 : q ≤ 24) :
    createEntry now1 now2 freshId store ⟨.str nm, .num (t : ℚ), .str s, .undef⟩ =
      (CreateResult.created ⟨freshId, nm, t, q, "", now2, now2⟩,
        store ++ [⟨freshId, nm, t, q, "", now2, now2⟩]) := by
  have hpd : parseDec "" = none := by decide
  have hse : s ≠ "" := by
    intro hemp
    rw [hemp] at hs
    have htr : trimStr "" = "" := by decide
    rw [htr, hpd] at hs
    cases hs
  have hstr : trimStr s ≠ "" := by
    intro hemp
    rw [hemp, hpd] at hs
    cases hs
  have hne : nm ≠ "" := by
    intro hemp
    rw [hemp] at hlen
    simp at hlen
  have htq : ((t : ℚ)) ≠ 0 := Int.cast_ne_zero.mpr ht0
  have hqle : ¬ q ≤ 0 := not_le.mpr (lt_of_lt_of_le (by norm_num) hq1)
  have hqgt : ¬ (24:ℚ) < q := not_lt.mpr hq2
  have hnlt : ¬ nm.length < 2 := not_lt.mpr hlen
  have hdn : ¬ now1 < t := not_lt.mpr hd
  have hd2 : t ≤ now2 := le_trans hd hnow
  have htrimE : trimStr "" = "" := by decide
  have hq1i : ((10:ℚ)⁻¹ ≤ q) := by
    rw [inv_eq_one_div]
    exact hq1
  simp [createEntry, truthy, trimVal, jsDateGT, jsNewDate, jsTrunc_intCast, jsLE, jsGT,
    toNumber, parseFloatV, validateEntry, hse, hstr, hs, hne, htq, hnm, hnlt, hqle, hqgt,
    hdn, hd2, htrimE, hlen, hnow, hq1i, hq2]

unseal Rat.add Rat.mul Rat.inv Rat.sub in
/-- C9 witness: the string "5" is accepted and stored as the number 5. -/
theorem c9_witness :
    createEntry 1 1 "f2" [] ⟨.str "ab", .num ((1:ℤ) : ℚ), .str "5", .undef⟩ =
      (CreateResult.created ⟨"f2", "ab", 1, 5, "", 1, 1⟩,
        [] ++ [⟨"f2", "ab", 1, 5, "", 1, 1⟩]) :=
  c9_numeric_string_hours 1 1 1 "f2" [] "ab" "5" 5 (by decide) (by decide) (by decide)
    (by decide) (by decide) (by decide) (by decide) (by decide)
